import Mathlib

/-!
# MeshLogic SDK — request/response/error-mapping core, shallow embedding

This file embeds the client core shared by the TypeScript and Go variants of
the MeshLogic SDK: client construction (API-key / base-URL / timeout
resolution), query-parameter construction, and the classification of HTTP
responses and transport failures into the SDK's typed error hierarchy.

The embedding is translated directly from the source:
* Go variant: package `meshlogic` (`client.go` = `NewClient` / `Client.request`,
  `errors.go` = the `Error` hierarchy).
* TypeScript variant: `src/client.ts` (`MeshLogicClient`) and `src/errors.ts`.

Host-library calls (JSON parsing by `encoding/json` / `Response.json()`) are
modelled by passing their outcome as an explicit input to the classifier:
`none` means the parse failed, `some (code, message)` (resp. the optional
`message`/`code` fields) means it succeeded with those fields.
-/

namespace MeshLogicSDK

/-! ## String containment (used to state "the string form includes ...") -/

/-- Boolean test that `pat` occurs at the head of `l`. -/
def listStartsWith : List Char → List Char → Bool
  | [], _ => true
  | _ :: _, [] => false
  | a :: as, b :: bs => if a = b then listStartsWith as bs else false

/-- Boolean test that `pat` occurs somewhere inside `l`. -/
def listContains (pat : List Char) : List Char → Bool
  | [] => listStartsWith pat []
  | c :: cs => listStartsWith pat (c :: cs) || listContains pat cs

/-- Holds (`strContains s pat = true`) iff `pat` occurs as a contiguous substring of `s`. -/
def strContains (s pat : String) : Bool :=
  listContains pat.data s.data

/-! ## JavaScript value / falsiness helpers -/

/-- A scalar query-parameter value as the TypeScript `request` accepts it
(`string | number | boolean`). -/
inductive JsVal where
  | str (s : String)
  | num (n : Int)
  | boolean (b : Bool)
  deriving DecidableEq

/-- The `String(value)` conversion applied by `url.searchParams.set(key, String(value))`. -/
def JsVal.render : JsVal → String
  | .str s => s
  | .num n => toString n
  | .boolean b => if b then "true" else "false"

/-- JavaScript `x || d` for `x : string | undefined`: `undefined` and `""` are falsy. -/
def jsOrS (x : Option String) (d : String) : String :=
  match x with
  | some s => if s = "" then d else s
  | none => d

/-- JavaScript `x || d` for `x : number | undefined`: `undefined` and `0` are falsy. -/
def jsOrN (x : Option Nat) (d : Nat) : Nat :=
  match x with
  | some n => if n = 0 then d else n
  | none => d

/-! ## Leading-integer scanning

Both variants extract the `Retry-After` value with the same lexical rule:
skip leading whitespace, an optional sign, then take the longest digit
prefix.  JavaScript `parseInt(s, 10)` returns `NaN` (here `none`) when no
digit follows; Go `fmt.Sscanf(s, "%d", &n)` fails and leaves `n` untouched
in exactly the same situations. -/

/-- Numeric value of a digit list (most significant first). -/
def digitsToNat (l : List Char) : Nat :=
  l.foldl (fun a c => a * 10 + (c.toNat - 48)) 0

/-- Leading-integer scan shared by `parseInt(·, 10)` and `Sscanf "%d"`:
`none` models JS `NaN` / a failed Go scan. -/
def scanLeadingInt (s : String) : Option Int :=
  let l := s.data.dropWhile (fun c => c.isWhitespace)
  let sign : Int := match l with
    | '-' :: _ => -1
    | _ => 1
  let l' := match l with
    | '-' :: r => r
    | '+' :: r => r
    | _ => l
  let ds := l'.takeWhile (fun c => c.isDigit)
  if ds.isEmpty then none else some (sign * (digitsToNat ds : Int))

/-! ## Go variant: error hierarchy (`errors.go`) -/

/-- Go `meshlogic.Error`: the base API error struct
(`Code`, `Message`, `StatusCode`). -/
structure GoError where
  code : String
  message : String
  statusCode : Nat
  deriving DecidableEq

/-- The closed set of Go error values the SDK defines: the base `Error` and
the four embedding specializations. -/
inductive GoErrVal where
  | base (e : GoError)
  | auth (e : GoError)
  | notFound (e : GoError)
  | rateLimit (e : GoError) (retryAfter : Int)
  | validation (e : GoError) (field : String)
  deriving DecidableEq

/-- The embedded base `Error` of any Go error value. -/
def GoErrVal.info : GoErrVal → GoError
  | .base e => e
  | .auth e => e
  | .notFound e => e
  | .rateLimit e _ => e
  | .validation e _ => e

/-- Whether a Go error value is of the `AuthenticationError` type. -/
def GoErrVal.isAuth : GoErrVal → Bool
  | .auth _ => true
  | _ => false

/-- Go `(e *Error) Error()`: `"[Code] Message"` when `Code` is nonempty,
else just `Message`. -/
def GoError.errorString (e : GoError) : String :=
  if e.code ≠ "" then "[" ++ e.code ++ "] " ++ e.message else e.message

/-- The `Error() string` method actually invoked on each Go error value:
`AuthenticationError` and `NotFoundError` inherit the embedded `Error`'s
method; `RateLimitError` and `ValidationError` override it. -/
def GoErrVal.errorString : GoErrVal → String
  | .base e => e.errorString
  | .auth e => e.errorString
  | .notFound e => e.errorString
  | .rateLimit e ra => e.message ++ ". Retry after " ++ toString ra ++ " seconds."
  | .validation e f =>
    if f ≠ "" then "Validation error on field '" ++ f ++ "': " ++ e.message
    else "Validation error: " ++ e.message

/-! ## Go variant: client construction (`NewClient`) -/

/-- The fixed `endpoints` region table. -/
def endpoints (r : String) : Option String :=
  if r = "ap-southeast-2" then some "https://api.meshlogic.ai"
  else if r = "us-east-1" then some "https://api.us.meshlogic.ai"
  else if r = "eu-west-1" then some "https://api.eu.meshlogic.ai"
  else none

/-- The resolved Go client value (`apiKey`, `baseURL`, and the embedded
`http.Client`'s timeout, in milliseconds). -/
structure GoClient where
  apiKey : String
  baseURL : String
  timeoutMs : Nat
  deriving DecidableEq

/-- The functional options accepted by `NewClient`.  (`WithHTTPClient`, which
swaps the transport object wholesale, is not involved in any claim.) -/
inductive GoOption where
  | withAPIKey (k : String)
  | withRegion (r : String)
  | withBaseURL (u : String)
  | withTimeout (ms : Nat)
  deriving DecidableEq

/-- Application of one functional option, exactly as each closure mutates the
client: `WithRegion` only updates `baseURL` when the region is in the table. -/
def applyOption (c : GoClient) : GoOption → GoClient
  | .withAPIKey k => { c with apiKey := k }
  | .withRegion r =>
    match endpoints r with
    | some e => { c with baseURL := e }
    | none => c
  | .withBaseURL u => { c with baseURL := u }
  | .withTimeout ms => { c with timeoutMs := ms }

/-- Go `os.Getenv` returns `""` for an unset variable, so the environment is
a plain string here. `NewClient`: start from the defaults, apply the options
in order, fall back to `MESHLOGIC_API_KEY`, and fail when the key is still
empty. -/
def goNewClient (opts : List GoOption) (env : String) : Except GoErrVal GoClient :=
  let c0 : GoClient :=
    { apiKey := ""
      baseURL := (endpoints "ap-southeast-2").getD ""
      timeoutMs := 30000 }
  let c1 := opts.foldl applyOption c0
  let c2 := if c1.apiKey = "" then { c1 with apiKey := env } else c1
  if c2.apiKey = "" then
    .error (.base
      { code := "AUTH_ERROR"
        message := "API key required. Provide via WithAPIKey() or MESHLOGIC_API_KEY environment variable."
        statusCode := 0 })
  else
    .ok c2

/-! ## Go variant: `Client.request` outcome classification -/

/-- The observable parts of an HTTP response as `Client.request` reads them:
status, body bytes, and `resp.Header.Get("Retry-After")` (`""` when the
header is absent). -/
structure GoResp where
  status : Nat
  body : String
  retryAfterHeader : String
  deriving DecidableEq

/-- What `httpClient.Do` produced: a response (together with the outcome of
`json.Unmarshal(respBody, &apiErr)` — `none` when the body is not valid JSON
for the `Error` struct, e.g. an empty body), or a transport-level error. -/
inductive GoFetchOutcome where
  | success (resp : GoResp) (parsed : Option (String × String))
  | failure (desc : String)
  deriving DecidableEq

/-- Result of the Go `request`: raw body bytes on success, one of the typed
API errors on `status >= 400`, or the *unwrapped* transport error. -/
inductive GoReqResult where
  | ok (body : String)
  | apiError (e : GoErrVal)
  | rawError (desc : String)
  deriving DecidableEq

/-- The `Retry-After` handling at `case 429`: `retryAfter := 60`, then
`Sscanf(ra, "%d", &retryAfter)` only when the header is nonempty (a failed
scan leaves the default in place). -/
def goRetryAfter (hdr : String) : Int :=
  if hdr ≠ "" then (scanLeadingInt hdr).getD 60 else 60

/-- The `resp.StatusCode >= 400` branch of Go `Client.request`: build
`apiErr` from the unmarshalled body (or synthesize `UNKNOWN` with the raw
body), overwrite its `StatusCode`, then switch on the exact status. -/
def goClassify (resp : GoResp) (parsed : Option (String × String)) : GoErrVal :=
  let apiErr0 : GoError :=
    match parsed with
    | some (c, m) => { code := c, message := m, statusCode := 0 }
    | none => { code := "UNKNOWN", message := resp.body, statusCode := resp.status }
  let apiErr := { apiErr0 with statusCode := resp.status }
  if resp.status = 401 then .auth apiErr
  else if resp.status = 404 then .notFound apiErr
  else if resp.status = 429 then .rateLimit apiErr (goRetryAfter resp.retryAfterHeader)
  else .base apiErr

/-- Go `Client.request`, from the point the HTTP round-trip resolves: a
transport error is returned as-is; a response is classified only when its
status is at least 400, and otherwise the raw body is returned. -/
def goRequest (f : GoFetchOutcome) : GoReqResult :=
  match f with
  | .failure d => .rawError d
  | .success resp parsed =>
    if 400 ≤ resp.status then .apiError (goClassify resp parsed)
    else .ok resp.body

/-- The machine code carried by a Go request result, when the result is one
of the SDK's typed API errors. -/
def goResultCode : GoReqResult → Option String
  | .apiError e => some e.info.code
  | _ => none

/-! ## TypeScript variant: error hierarchy (`errors.ts`)

Each class is a `MeshLogicError` carrying `name`, `message`, optional
`code` and `statusCode`, plus the subclass fields `retryAfter`
(`RateLimitError`; `none` models JavaScript `NaN`) and `field`
(`ValidationError`).  The `name` field is exactly the `this.name` each
constructor sets, and `toStr` dispatches on it the way JavaScript method
lookup dispatches on the class. -/

structure TsError where
  name : String
  message : String
  code : Option String
  statusCode : Option Nat
  retryAfter : Option Int
  field : Option String
  deriving DecidableEq

/-- Constructor `new MeshLogicError(message, code?, statusCode?)`. -/
def mkMeshLogicError (message : String) (code : Option String)
    (statusCode : Option Nat) : TsError :=
  { name := "MeshLogicError", message := message, code := code
    statusCode := statusCode, retryAfter := none, field := none }

/-- Constructor `new AuthenticationError(message)` (code `AUTH_ERROR`, status 401). -/
def mkAuthenticationError (message : String) : TsError :=
  { name := "AuthenticationError", message := message, code := some "AUTH_ERROR"
    statusCode := some 401, retryAfter := none, field := none }

/-- Constructor `new RateLimitError(message, retryAfter)` (code `RATE_LIMIT`, status 429). -/
def mkRateLimitError (message : String) (retryAfter : Option Int) : TsError :=
  { name := "RateLimitError", message := message, code := some "RATE_LIMIT"
    statusCode := some 429, retryAfter := retryAfter, field := none }

/-- Constructor `new NotFoundError(message)` (code `NOT_FOUND`, status 404). -/
def mkNotFoundError (message : String) : TsError :=
  { name := "NotFoundError", message := message, code := some "NOT_FOUND"
    statusCode := some 404, retryAfter := none, field := none }

/-- Constructor `new ValidationError(message, field?)` (code `VALIDATION_ERROR`, status 400). -/
def mkValidationError (message : String) (field : Option String) : TsError :=
  { name := "ValidationError", message := message, code := some "VALIDATION_ERROR"
    statusCode := some 400, retryAfter := none, field := field }

/-- Rendering of `${this.retryAfter}`: `NaN` prints as `"NaN"`. -/
def renderRetryAfter : Option Int → String
  | some n => toString n
  | none => "NaN"

/-- Method `toString()` as dynamically dispatched: the `RateLimitError` and
`ValidationError` overrides, else the base `MeshLogicError.toString`
(which includes the code only when it is truthy). -/
def TsError.toStr (e : TsError) : String :=
  if e.name = "RateLimitError" then
    e.message ++ ". Retry after " ++ renderRetryAfter e.retryAfter ++ " seconds."
  else if e.name = "ValidationError" then
    match e.field with
    | some f =>
      if f = "" then "Validation error: " ++ e.message
      else "Validation error on field '" ++ f ++ "': " ++ e.message
    | none => "Validation error: " ++ e.message
  else
    match e.code with
    | some c => if c = "" then e.message else "[" ++ c ++ "] " ++ e.message
    | none => e.message

/-! ## TypeScript variant: client construction (`MeshLogicClient` constructor) -/

/-- The `ClientConfig` options object. -/
structure TsConfig where
  apiKey : Option String
  region : Option String
  baseUrl : Option String
  timeout : Option Nat
  deriving DecidableEq

/-- The resolved immutable client state (`apiKey`, `baseUrl`, `timeout`). -/
structure TsClient where
  apiKey : String
  baseUrl : String
  timeout : Nat
  deriving DecidableEq

/-- Resolution `config.apiKey || process.env.MESHLOGIC_API_KEY || ''`
(`env = none` models an unset environment variable). -/
def tsResolveKey (cfg : TsConfig) (env : Option String) : String :=
  jsOrS cfg.apiKey (jsOrS env "")

/-- Resolution `config.baseUrl || ENDPOINTS[region] || ENDPOINTS['ap-southeast-2']`
with `region = config.region || 'ap-southeast-2'`. -/
def tsResolveBaseUrl (cfg : TsConfig) : String :=
  jsOrS cfg.baseUrl
    (jsOrS (endpoints (jsOrS cfg.region "ap-southeast-2"))
      ((endpoints "ap-southeast-2").getD ""))

/-- The `MeshLogicClient` constructor: throws `AuthenticationError` when the
resolved key is empty, else produces the resolved client. -/
def tsNewClient (cfg : TsConfig) (env : Option String) : Except TsError TsClient :=
  let key := tsResolveKey cfg env
  if key = "" then
    .error (mkAuthenticationError
      "API key required. Provide via apiKey option or MESHLOGIC_API_KEY environment variable.")
  else
    .ok { apiKey := key, baseUrl := tsResolveBaseUrl cfg, timeout := jsOrN cfg.timeout 30000 }

/-! ## TypeScript variant: `request` outcome classification -/

/-- The observable parts of a `fetch` response as `request` reads them:
`status`, the `message`/`code` fields of `await response.json().catch(() => ({}))`
(`none` when the field is absent or the body did not parse), the
`Retry-After` header (`none` when absent), and — for the success path — the
result of `response.json()` (`none` when that promise rejects). -/
structure TsResp where
  status : Nat
  errMessage : Option String
  errCode : Option String
  retryAfterHeader : Option String
  bodyJson : Option String
  deriving DecidableEq

/-- How the `fetch` call resolved: a response, an `AbortError` (the timeout
timer fired and cancelled the request), or another transport failure whose
`String(error)` description is `desc`. -/
inductive TsFetchOutcome where
  | success (r : TsResp)
  | abort
  | failure (desc : String)
  deriving DecidableEq

/-- Result of the TypeScript `request`: the parsed JSON body, a thrown
`MeshLogicError`-hierarchy value, or a rejection with a raw (non-SDK) error
such as the `SyntaxError` from `response.json()`. -/
inductive TsReqResult where
  | ok (bodyJson : String)
  | err (e : TsError)
  | reject (desc : String)
  deriving DecidableEq

/-- The call `parseInt(response.headers.get('Retry-After') || '60', 10)`:
`none` models `NaN`. -/
def tsRetryAfter (hdr : Option String) : Option Int :=
  scanLeadingInt (jsOrS hdr "60")

/-- The `!response.ok` switch of `request`: classification by exact status
with the per-status fallback messages. -/
def tsClassify (path : String) (r : TsResp) : TsError :=
  if r.status = 401 then
    mkAuthenticationError (jsOrS r.errMessage "Invalid or expired API key")
  else if r.status = 404 then
    mkNotFoundError (jsOrS r.errMessage ("Resource not found: " ++ path))
  else if r.status = 429 then
    mkRateLimitError (jsOrS r.errMessage "Rate limit exceeded") (tsRetryAfter r.retryAfterHeader)
  else
    mkMeshLogicError (jsOrS r.errMessage "Unknown error")
      (some (jsOrS r.errCode "UNKNOWN")) (some r.status)

/-- TypeScript `request`, from the point the `fetch` promise resolves.
`response.ok` is status 200–299; outside that range the response is
classified (and the classified error is re-thrown unchanged by the `catch`).
On the ok path `return response.json()` is not awaited, so a JSON parse
failure escapes as a raw `SyntaxError` rejection, not an SDK error.
An `AbortError` becomes a `TIMEOUT` error; any other failure becomes a
`NETWORK_ERROR` error wrapping `String(error)`. -/
def tsRequest (path : String) (o : TsFetchOutcome) : TsReqResult :=
  match o with
  | .abort => .err (mkMeshLogicError "Request timeout" (some "TIMEOUT") none)
  | .failure d => .err (mkMeshLogicError d (some "NETWORK_ERROR") none)
  | .success r =>
    if 200 ≤ r.status ∧ r.status ≤ 299 then
      match r.bodyJson with
      | some j => .ok j
      | none => .reject "SyntaxError: Unexpected end of JSON input"
    else .err (tsClassify path r)

/-! ## TypeScript variant: query-parameter construction

`url.searchParams.set(key, String(value))` for each entry whose value is
not `undefined`.  `URLSearchParams.set` replaces the value of the first
pair with that name and removes the others, or appends when absent. -/

/-- A `URLSearchParams.delete`-style removal of every pair named `k`. -/
def uspRemove : List (String × String) → String → List (String × String)
  | [], _ => []
  | (k', v) :: rest, k =>
    if k' = k then uspRemove rest k else (k', v) :: uspRemove rest k

/-- Operation `URLSearchParams.set k v`. -/
def uspSet : List (String × String) → String → String → List (String × String)
  | [], k, v => [(k, v)]
  | (k', v') :: rest, k, v =>
    if k' = k then (k, v) :: uspRemove rest k
    else (k', v') :: uspSet rest k v

/-- The `Object.entries(params).forEach` loop of `request`: set each defined
entry in order, skip `undefined` ones. -/
def tsBuildParams (ps : List (String × Option JsVal)) : List (String × String) :=
  ps.foldl (fun acc kv =>
    match kv.2 with
    | some v => uspSet acc kv.1 v.render
    | none => acc) []

/-- Lookup of the first value stored under a key among the built pairs. -/
def qget : List (String × String) → String → Option String
  | [], _ => none
  | (k', v) :: rest, k => if k' = k then some v else qget rest k

/-- Specification-side value: the stringified last defined value written for
`k`, `none` when no entry defines `k`. -/
def lastDefined (ps : List (String × Option JsVal)) (k : String) : Option String :=
  match ps with
  | [] => none
  | (k', v) :: rest =>
    match lastDefined rest k with
    | some r => some r
    | none => if k' = k then v.map JsVal.render else none

/-! ## Go variant: query-parameter construction

`url.Values` is `map[string][]string`; the services build it with
`v.Set(key, value)` guarded by definedness checks, and `Client.request`
serializes it with `params.Encode()`, which iterates the keys in sorted
order and emits one `key=value` pair per stored value. -/

/-- Byte-wise lexicographic `≤` on strings (the order `sort.Strings` uses). -/
def strLeList : List Char → List Char → Bool
  | [], _ => true
  | _ :: _, [] => false
  | a :: as, b :: bs => if a = b then strLeList as bs else Nat.ble a.toNat b.toNat

/-- Lexicographic comparison used by `Encode`'s key sort. -/
def strLeB (a b : String) : Bool :=
  strLeList a.data b.data

/-- Go map assignment `v[key] = []string{value}` on the association-list
model of `url.Values`. -/
def goValuesSet : List (String × List String) → String → String → List (String × List String)
  | [], k, v => [(k, [v])]
  | (k', vs') :: rest, k, v =>
    if k' = k then (k, [v]) :: rest
    else (k', vs') :: goValuesSet rest k v

/-- A `url.Values` built the way every service method builds it: `Set` each
defined parameter in order, skip the undefined ones. -/
def goBuildValues (ps : List (String × Option String)) : List (String × List String) :=
  ps.foldl (fun acc kv =>
    match kv.2 with
    | some v => goValuesSet acc kv.1 v
    | none => acc) []

/-- Lookup in the `url.Values` map model. -/
def goLookup : List (String × List String) → String → Option (List String)
  | [], _ => none
  | (k', l) :: rest, k => if k' = k then some l else goLookup rest k

/-- Serialization `url.Values.Encode()` as a list of `key=value` pairs: keys in sorted
order, one pair per stored value. -/
def goEncode (vs : List (String × List String)) : List (String × String) :=
  ((vs.map (·.1)).mergeSort strLeB).flatMap
    (fun k => ((goLookup vs k).getD []).map (fun v => (k, v)))

/-- Specification-side value for the Go side: last defined value written
for `k`. -/
def goLastDefined (ps : List (String × Option String)) (k : String) : Option String :=
  match ps with
  | [] => none
  | (k', v) :: rest =>
    match goLastDefined rest k with
    | some r => some r
    | none => if k' = k then v else none

/-! ## Error-kind observations and specification-side characterizations

`ErrKind` names the error kind independently of the per-language
representation; `kindOfStatus`, `tsFallbackMessage` and `tsFixedCode` state
the (amended) specification's per-status classification, to be compared
with the classifiers translated from the source. -/

/-- The kinds of the SDK error taxonomy. -/
inductive ErrKind where
  | generic
  | auth
  | notFound
  | rateLimit
  | validation
  deriving DecidableEq

/-- The kind of a Go error value (given by its Go type). -/
def GoErrVal.kind : GoErrVal → ErrKind
  | .base _ => .generic
  | .auth _ => .auth
  | .notFound _ => .notFound
  | .rateLimit _ _ => .rateLimit
  | .validation _ _ => .validation

/-- The kind of a TypeScript error value (given by its class `name`). -/
def TsError.kind (e : TsError) : ErrKind :=
  if e.name = "AuthenticationError" then .auth
  else if e.name = "NotFoundError" then .notFound
  else if e.name = "RateLimitError" then .rateLimit
  else if e.name = "ValidationError" then .validation
  else .generic

/-- Specification-side map from an HTTP status at least 400 to the error
kind the claims prescribe. -/
def kindOfStatus (st : Nat) : ErrKind :=
  if st = 401 then .auth
  else if st = 404 then .notFound
  else if st = 429 then .rateLimit
  else .generic

/-- Specification-side fallback messages of the TypeScript classifier. -/
def tsFallbackMessage (st : Nat) (path : String) : String :=
  if st = 401 then "Invalid or expired API key"
  else if st = 404 then "Resource not found: " ++ path
  else if st = 429 then "Rate limit exceeded"
  else "Unknown error"

/-- Specification-side code of the TypeScript classifier: fixed per kind for
401/404/429, else the body's code with fallback `UNKNOWN`. -/
def tsFixedCode (st : Nat) (bodyCode : Option String) : String :=
  if st = 401 then "AUTH_ERROR"
  else if st = 404 then "NOT_FOUND"
  else if st = 429 then "RATE_LIMIT"
  else jsOrS bodyCode "UNKNOWN"

/-- The API key `NewClient` ends up using: the options' key when nonempty,
else the environment variable. -/
def goResolvedKey (opts : List GoOption) (env : String) : String :=
  let c1 := opts.foldl applyOption
    { apiKey := "", baseURL := (endpoints "ap-southeast-2").getD "", timeoutMs := 30000 }
  if c1.apiKey = "" then env else c1.apiKey

/-! # Supporting lemmas -/

theorem listStartsWith_self_append (p r : List Char) : listStartsWith p (p ++ r) = true := by
  induction p with
  | nil => rfl
  | cons a as ih => simp [listStartsWith, ih]

theorem listContains_of_startsWith (p l : List Char) (h : listStartsWith p l = true) :
    listContains p l = true := by
  cases l with
  | nil => simpa [listContains] using h
  | cons c cs => simp [listContains, h]

theorem listContains_of_suffix (p a r : List Char) :
    listContains p (a ++ (p ++ r)) = true := by
  induction a with
  | nil => exact listContains_of_startsWith _ _ (listStartsWith_self_append p r)
  | cons c cs ih => simp [listContains, ih]

/-- Any string of the form `a ++ p ++ b` contains `p`. -/
theorem strContains_append (a p b : String) : strContains (a ++ p ++ b) p = true := by
  unfold strContains
  rw [String.data_append, String.data_append, List.append_assoc]
  exact listContains_of_suffix p.data a.data b.data

/-- Removing the pairs named `k'` does not change the lookup of another key. -/
theorem qget_uspRemove (l : List (String × String)) (k' k : String) (h : k' ≠ k) :
    qget (uspRemove l k') k = qget l k := by
  induction l with
  | nil => rfl
  | cons p rest ih =>
    obtain ⟨k₀, v₀⟩ := p
    by_cases h₀ : k₀ = k'
    · have h₀k : ¬ (k₀ = k) := fun hc => h (h₀ ▸ hc)
      simp [uspRemove, qget, h₀, h₀k, h, ih]
    · simp only [uspRemove, if_neg h₀, qget]
      by_cases h₀k : k₀ = k
      · simp [h₀k]
      · simp [h₀k, ih]

/-- The `URLSearchParams.set` semantics at the level of per-key lookup. -/
theorem qget_uspSet (l : List (String × String)) (k' v k : String) :
    qget (uspSet l k' v) k = if k' = k then some v else qget l k := by
  induction l with
  | nil =>
    by_cases h : k' = k <;> simp [uspSet, qget, h]
  | cons p rest ih =>
    obtain ⟨k₀, v₀⟩ := p
    by_cases h₀ : k₀ = k'
    · subst h₀
      by_cases h : k₀ = k
      · simp [uspSet, qget, h]
      · simp [uspSet, qget, h, qget_uspRemove rest k₀ k h]
    · by_cases h : k₀ = k
      · have hk : ¬ (k' = k) := fun hc => h₀ (h.trans hc.symm)
        have hk2 : ¬ (k = k') := fun hc => hk hc.symm
        simp [uspSet, h₀, qget, h, hk, hk2]
      · simp [uspSet, h₀, qget, h, ih]

/-- The `forEach`/`set` loop computes, per key, the last defined value. -/
theorem qget_tsFold (ps : List (String × Option JsVal)) :
    ∀ (acc : List (String × String)) (k : String),
      qget (ps.foldl (fun acc kv =>
        match kv.2 with
        | some v => uspSet acc kv.1 v.render
        | none => acc) acc) k
      = match lastDefined ps k with
        | some v => some v
        | none => qget acc k := by
  induction ps with
  | nil => intro acc k; rfl
  | cons p rest ih =>
    intro acc k
    obtain ⟨k', v⟩ := p
    simp only [List.foldl_cons]
    rw [ih]
    cases h : lastDefined rest k with
    | some r => simp [lastDefined, h]
    | none =>
      simp only [lastDefined, h]
      cases v with
      | none => by_cases hk : k' = k <;> simp [hk]
      | some x =>
        by_cases hk : k' = k <;> simp [hk, qget_uspSet]

/-- Per-key lookup for the built TypeScript query string. -/
theorem qget_tsBuildParams (ps : List (String × Option JsVal)) (k : String) :
    qget (tsBuildParams ps) k = lastDefined ps k := by
  unfold tsBuildParams
  rw [qget_tsFold]
  cases h : lastDefined ps k <;> simp [qget]

/-- Go map assignment semantics at the level of per-key lookup. -/
theorem goLookup_goValuesSet (vs : List (String × List String)) (k' v k : String) :
    goLookup (goValuesSet vs k' v) k = if k' = k then some [v] else goLookup vs k := by
  induction vs with
  | nil =>
    by_cases h : k' = k <;> simp [goValuesSet, goLookup, h]
  | cons p rest ih =>
    obtain ⟨k₀, l₀⟩ := p
    by_cases h₀ : k₀ = k'
    · subst h₀
      by_cases h : k₀ = k <;> simp [goValuesSet, goLookup, h]
    · by_cases h : k₀ = k
      · have hk : ¬ (k' = k) := fun hc => h₀ (h.trans hc.symm)
        have hk2 : ¬ (k = k') := fun hc => hk hc.symm
        simp [goValuesSet, h₀, goLookup, h, hk, hk2]
      · simp [goValuesSet, h₀, goLookup, h, ih]

/-- The Go `Set` loop computes, per key, a singleton with the last defined
value. -/
theorem goLookup_goBuildFold (ps : List (String × Option String)) :
    ∀ (acc : List (String × List String)) (k : String),
      goLookup (ps.foldl (fun acc kv =>
        match kv.2 with
        | some v => goValuesSet acc kv.1 v
        | none => acc) acc) k
      = match goLastDefined ps k with
        | some v => some [v]
        | none => goLookup acc k := by
  induction ps with
  | nil => intro acc k; rfl
  | cons p rest ih =>
    intro acc k
    obtain ⟨k', v⟩ := p
    simp only [List.foldl_cons]
    rw [ih]
    cases h : goLastDefined rest k with
    | some r => simp [goLastDefined, h]
    | none =>
      simp only [goLastDefined, h]
      cases v with
      | none => by_cases hk : k' = k <;> simp [hk]
      | some x =>
        by_cases hk : k' = k <;> simp [hk, goLookup_goValuesSet]

theorem goLookup_goBuildValues (ps : List (String × Option String)) (k : String) :
    goLookup (goBuildValues ps) k = (goLastDefined ps k).map (fun v => [v]) := by
  unfold goBuildValues
  rw [goLookup_goBuildFold]
  cases h : goLastDefined ps k <;> simp [goLookup]

/-- Membership in the encoded Go query string, characterized through the
`url.Values` map. -/
theorem mem_goEncode (vs : List (String × List String)) (k v : String) :
    (k, v) ∈ goEncode vs ↔ k ∈ vs.map (·.1) ∧ v ∈ (goLookup vs k).getD [] := by
  unfold goEncode
  rw [List.mem_flatMap]
  constructor
  · rintro ⟨k₀, hk₀, hmem⟩
    rw [List.mem_map] at hmem
    obtain ⟨v₀, hv₀, heq⟩ := hmem
    simp only [Prod.mk.injEq] at heq
    obtain ⟨rfl, rfl⟩ := heq
    exact ⟨List.mem_mergeSort.mp hk₀, hv₀⟩
  · rintro ⟨hk, hv⟩
    exact ⟨k, List.mem_mergeSort.mpr hk, List.mem_map.mpr ⟨v, hv, rfl⟩⟩

/-- A key is in the `url.Values` map iff its lookup is defined. -/
theorem mem_keys_iff_goLookup (vs : List (String × List String)) (k : String) :
    k ∈ vs.map (·.1) ↔ (goLookup vs k).isSome := by
  induction vs with
  | nil => simp [goLookup]
  | cons p rest ih =>
    obtain ⟨k₀, l₀⟩ := p
    by_cases h : k₀ = k
    · simp [goLookup, h]
    · have hne : ¬ (k = k₀) := fun hc => h hc.symm
      simp [goLookup, h, hne, ih]

/-! # Claim theorems -/

/-- C6: for every query-parameter mapping passed to `request`, exactly the
keys whose value is defined appear in the built query string, each set to
the stringified value with last write winning per key; keys whose value is
absent are omitted entirely, never serialized as empty strings.  The first
conjunct characterizes the TypeScript `URLSearchParams` loop (lookup of any
key in the built pairs is exactly the last defined, stringified value —
`none` when every write for that key was `undefined`); the second
characterizes the Go `url.Values.Set` / `Encode` pipeline (a `key=value`
pair occurs in the encoded query iff `value` is the last defined value
written for `key`). -/
theorem c6_queryParams_defined_exactly :
    (∀ (ps : List (String × Option JsVal)) (k : String),
      qget (tsBuildParams ps) k = lastDefined ps k)
    ∧ (∀ (qs : List (String × Option String)) (k v : String),
      (k, v) ∈ goEncode (goBuildValues qs) ↔ goLastDefined qs k = some v) := by
  constructor
  · exact qget_tsBuildParams
  · intro qs k v
    rw [mem_goEncode, mem_keys_iff_goLookup, goLookup_goBuildValues]
    cases h : goLastDefined qs k with
    | none => simp
    | some v₀ => simp [eq_comm]

/-- Witness for C6 at the spec's own example `{limit: undefined, status: "online"}`:
`limit` is omitted from the TypeScript query and `status=online` appears in
the Go-encoded query. -/
theorem c6_queryParams_defined_exactly_witness :
    qget (tsBuildParams [("limit", none), ("status", some (.str "online"))]) "limit" = none
    ∧ ("status", "online") ∈ goEncode (goBuildValues [("limit", none), ("status", some "online")]) := by
  constructor
  · rw [c6_queryParams_defined_exactly.1 [("limit", none), ("status", some (.str "online"))] "limit"]
    decide
  · exact (c6_queryParams_defined_exactly.2
      [("limit", none), ("status", some "online")] "status" "online").mpr (by decide)

/-- C3 (amended): only the TypeScript core classifies non-HTTP failures:
an abort of the in-flight request (the timeout timer fired) becomes an
error with code `TIMEOUT` and no HTTP status, and any other transport
failure becomes an error with code `NETWORK_ERROR` wrapping the failure's
description.  The Go `Client.request` returns the underlying transport
error unclassified (no SDK error, no code). -/
theorem c3_transportFailure_amended :
    (∀ path, tsRequest path .abort
      = .err (mkMeshLogicError "Request timeout" (some "TIMEOUT") none))
    ∧ (∀ path d, tsRequest path (.failure d)
      = .err (mkMeshLogicError d (some "NETWORK_ERROR") none))
    ∧ (∀ d, goRequest (.failure d) = .rawError d)
    ∧ (∀ d, goResultCode (goRequest (.failure d)) = none) := by
  refine ⟨fun path => rfl, fun path d => rfl, fun d => rfl, fun d => rfl⟩

/-- Counterexample to C3 as stated: on a Go transport-level failure the call
does not fail with an error whose code is `NETWORK_ERROR` — the raw
transport error is returned, carrying no SDK error code at all. -/
theorem c3_transportFailure_counterexample :
    goRequest (.failure "dial tcp: connection refused")
      = .rawError "dial tcp: connection refused"
    ∧ goResultCode (goRequest (.failure "dial tcp: connection refused")) = none
    ∧ (none : Option String) ≠ some "NETWORK_ERROR" := by
  refine ⟨rfl, rfl, by decide⟩

/-- C1 (amended): for every response with status at least 400, in both
variants the resulting error's status code equals the HTTP status and the
error kind is chosen by exact status (401 authentication, 404 not-found,
429 rate-limit, any other generic).  In the Go variant the error's code and
message equal the body's `{code, message}` fields when the body parses, and
otherwise a synthesized error with code `UNKNOWN` and the raw body as the
message is produced.  In the TypeScript variant only the message comes from
the body (when present and nonempty, else the fixed per-status fallback
message); the code is the kind's fixed code for 401/404/429 and the body's
code (fallback `UNKNOWN`) only in the generic branch. -/
theorem c1_statusMapping_amended :
    (∀ (resp : GoResp) (parsed : Option (String × String)), 400 ≤ resp.status →
      goRequest (.success resp parsed) = .apiError (goClassify resp parsed)
      ∧ (goClassify resp parsed).info.statusCode = resp.status
      ∧ (goClassify resp parsed).kind = kindOfStatus resp.status
      ∧ (∀ c m, parsed = some (c, m) →
          (goClassify resp parsed).info.code = c
          ∧ (goClassify resp parsed).info.message = m)
      ∧ (parsed = none →
          (goClassify resp parsed).info.code = "UNKNOWN"
          ∧ (goClassify resp parsed).info.message = resp.body))
    ∧ (∀ (path : String) (r : TsResp), 400 ≤ r.status →
      tsRequest path (.success r) = .err (tsClassify path r)
      ∧ (tsClassify path r).statusCode = some r.status
      ∧ (tsClassify path r).kind = kindOfStatus r.status
      ∧ (tsClassify path r).message = jsOrS r.errMessage (tsFallbackMessage r.status path)
      ∧ (tsClassify path r).code = some (tsFixedCode r.status r.errCode)) := by
  constructor
  · intro resp parsed h
    refine ⟨by simp [goRequest, h], ?_, ?_, ?_, ?_⟩
    · by_cases h1 : resp.status = 401 <;> by_cases h2 : resp.status = 404 <;>
        by_cases h3 : resp.status = 429 <;>
        cases parsed <;>
        simp [goClassify, GoErrVal.info, h1, h2, h3]
    · by_cases h1 : resp.status = 401 <;> by_cases h2 : resp.status = 404 <;>
        by_cases h3 : resp.status = 429 <;>
        simp [goClassify, GoErrVal.kind, kindOfStatus, h1, h2, h3]
    · rintro c m rfl
      by_cases h1 : resp.status = 401 <;> by_cases h2 : resp.status = 404 <;>
        by_cases h3 : resp.status = 429 <;>
        simp [goClassify, GoErrVal.info, h1, h2, h3]
    · rintro rfl
      by_cases h1 : resp.status = 401 <;> by_cases h2 : resp.status = 404 <;>
        by_cases h3 : resp.status = 429 <;>
        simp [goClassify, GoErrVal.info, h1, h2, h3]
  · intro path r h
    have hnotOk : ¬ (200 ≤ r.status ∧ r.status ≤ 299) := by omega
    refine ⟨by simp [tsRequest, hnotOk], ?_⟩
    by_cases h1 : r.status = 401 <;> by_cases h2 : r.status = 404 <;>
      by_cases h3 : r.status = 429 <;>
      simp [tsClassify, TsError.kind, kindOfStatus, tsFallbackMessage, tsFixedCode,
        mkAuthenticationError, mkNotFoundError, mkRateLimitError, mkMeshLogicError,
        h1, h2, h3]

/-- Counterexample to C1 as stated: a TypeScript 401 response whose body
parses as `{code: "X", message: "m"}` produces an error whose code is the
fixed `AUTH_ERROR`, not the body's code `X`. -/
theorem c1_statusMapping_counterexample :
    tsRequest "/v1/events" (.success ⟨401, some "m", some "X", none, none⟩)
      = .err (mkAuthenticationError "m")
    ∧ (mkAuthenticationError "m").code = some "AUTH_ERROR"
    ∧ (some "AUTH_ERROR" : Option String) ≠ some "X" := by
  refine ⟨by decide, rfl, by decide⟩

/-- Witness for C1 (amended) at a concrete 500 response with an unparseable
body: the Go error is the generic one, code `UNKNOWN`, message the raw
body, status 500. -/
theorem c1_statusMapping_witness :
    goRequest (.success ⟨500, "oops", ""⟩ none) = .apiError (goClassify ⟨500, "oops", ""⟩ none)
    ∧ (goClassify ⟨500, "oops", ""⟩ none).info.statusCode = 500
    ∧ (goClassify ⟨500, "oops", ""⟩ none).kind = kindOfStatus 500
    ∧ (goClassify ⟨500, "oops", ""⟩ none).info.code = "UNKNOWN"
    ∧ (goClassify ⟨500, "oops", ""⟩ none).info.message = "oops" := by
  have h := c1_statusMapping_amended.1 ⟨500, "oops", ""⟩ none (by decide)
  exact ⟨h.1, h.2.1, h.2.2.1, (h.2.2.2.2 rfl).1, (h.2.2.2.2 rfl).2⟩

/-- C2 (amended): every 429 response fails with a rate-limit error.  In both
variants `retry_after` equals the integer scanned from the `Retry-After`
header's leading-integer prefix when that scan succeeds, and equals 60 when
the header is missing; when the header is present but unparseable, the Go
variant keeps the default 60 while the TypeScript variant stores `NaN`.
The message falls back to `"Rate limit exceeded"` only in the TypeScript
variant; the Go message is the body's `message` field when the body parses
and the raw body otherwise. -/
theorem c2_rateLimit_amended :
    (∀ (resp : GoResp) (parsed : Option (String × String)), resp.status = 429 →
      goRequest (.success resp parsed)
        = .apiError (.rateLimit (goClassify resp parsed).info (goRetryAfter resp.retryAfterHeader))
      ∧ (goClassify resp parsed).info.message
        = (match parsed with | some (_, m) => m | none => resp.body))
    ∧ (∀ (path : String) (r : TsResp), r.status = 429 →
      tsRequest path (.success r)
        = .err (mkRateLimitError (jsOrS r.errMessage "Rate limit exceeded")
            (tsRetryAfter r.retryAfterHeader)))
    ∧ (∀ (hdr : String) (n : Int), scanLeadingInt hdr = some n →
      goRetryAfter hdr = n ∧ tsRetryAfter (some hdr) = some n)
    ∧ (∀ (hdr : String), scanLeadingInt hdr = none →
      goRetryAfter hdr = 60 ∧ tsRetryAfter (some hdr) = (if hdr = "" then some 60 else none))
    ∧ goRetryAfter "" = 60 ∧ tsRetryAfter none = some 60
    ∧ scanLeadingInt "120" = some 120 ∧ scanLeadingInt "abc" = none := by
  refine ⟨?_, ?_, ?_, ?_, by decide, by decide, by decide, by decide⟩
  · intro resp parsed h
    constructor
    · have h400 : 400 ≤ resp.status := by omega
      simp only [goRequest, if_pos h400]
      cases parsed <;> simp [goClassify, GoErrVal.info, h]
    · cases parsed with
      | none => simp [goClassify, GoErrVal.info, h]
      | some p => cases p; simp [goClassify, GoErrVal.info, h]
  · intro path r h
    have hnotOk : ¬ (200 ≤ r.status ∧ r.status ≤ 299) := by omega
    simp [tsRequest, hnotOk, tsClassify, h]
  · intro hdr n hscan
    have hne : hdr ≠ "" := by
      intro hc; rw [hc] at hscan; exact Option.noConfusion ((by decide : scanLeadingInt "" = none) ▸ hscan)
    constructor
    · simp [goRetryAfter, hne, hscan]
    · simp [tsRetryAfter, jsOrS, hne, hscan]
  · intro hdr hscan
    constructor
    · by_cases hne : hdr = "" <;> simp [goRetryAfter, hne, hscan]
    · by_cases hne : hdr = ""
      · subst hne; decide
      · simp [tsRetryAfter, jsOrS, hne, hscan]

/-- Counterexample to C2 as stated: a Go 429 response with an empty body
yields message `""` (the raw body), not the fallback `"Rate limit
exceeded"`; and a TypeScript `Retry-After: abc` header yields retry-after
`NaN`, not 60. -/
theorem c2_rateLimit_counterexample :
    goRequest (.success ⟨429, "", ""⟩ none)
      = .apiError (.rateLimit ⟨"UNKNOWN", "", 429⟩ 60)
    ∧ ("" : String) ≠ "Rate limit exceeded"
    ∧ tsRetryAfter (some "abc") = none
    ∧ (none : Option Int) ≠ some 60 := by
  refine ⟨by decide, by decide, by decide, by decide⟩

/-- Witness for C2 (amended) at the spec's own example `Retry-After: 120`:
both variants report retry-after 120, and the Go request at that header
returns the rate-limit error with retry-after 120. -/
theorem c2_rateLimit_witness :
    goRetryAfter "120" = 120 ∧ tsRetryAfter (some "120") = some 120
    ∧ goRequest (.success ⟨429, "", "120"⟩ none)
      = .apiError (.rateLimit ⟨"UNKNOWN", "", 429⟩ (goRetryAfter "120")) := by
  have h1 := c2_rateLimit_amended.2.2.1 "120" 120 (by decide)
  have h2 := (c2_rateLimit_amended.1 ⟨429, "", "120"⟩ none rfl).1
  exact ⟨h1.1, h1.2, h2⟩

/-- C4 (amended): with no usable API key resolved (no explicit key and an
empty/unset environment variable), construction fails before anything else
— yielding `Except.error`, never a client value.  The TypeScript variant
throws an `AuthenticationError`; the Go variant returns the *base* API
`Error` with code `AUTH_ERROR` (not a value of the `AuthenticationError`
type). -/
theorem c4_missingKey_construction_amended :
    (∀ (cfg : TsConfig) (env : Option String), tsResolveKey cfg env = "" →
      tsNewClient cfg env = .error (mkAuthenticationError
        "API key required. Provide via apiKey option or MESHLOGIC_API_KEY environment variable."))
    ∧ (∀ m, (mkAuthenticationError m).name = "AuthenticationError"
        ∧ (mkAuthenticationError m).code = some "AUTH_ERROR")
    ∧ (∀ (opts : List GoOption) (env : String), goResolvedKey opts env = "" →
      goNewClient opts env = .error (.base
        { code := "AUTH_ERROR"
          message := "API key required. Provide via WithAPIKey() or MESHLOGIC_API_KEY environment variable."
          statusCode := 0 })) := by
  refine ⟨?_, fun m => ⟨rfl, rfl⟩, ?_⟩
  · intro cfg env h
    simp [tsNewClient, h]
  · intro opts env h
    simp only [goNewClient]
    simp only [goResolvedKey] at h
    split <;> rename_i hsplit
    · simp_all
    · simp_all

/-- Counterexample to C4 as stated: the Go construction failure is the base
`Error` type carrying code `AUTH_ERROR`, not an `AuthenticationError`
value. -/
theorem c4_missingKey_construction_counterexample :
    goNewClient [] "" = .error (.base
      { code := "AUTH_ERROR"
        message := "API key required. Provide via WithAPIKey() or MESHLOGIC_API_KEY environment variable."
        statusCode := 0 })
    ∧ (GoErrVal.base
      { code := "AUTH_ERROR"
        message := "API key required. Provide via WithAPIKey() or MESHLOGIC_API_KEY environment variable."
        statusCode := 0 }).isAuth = false := by
  exact ⟨rfl, rfl⟩

/-- Witness for C4 (amended): the empty configuration with an unset
environment variable fails in both variants. -/
theorem c4_missingKey_construction_witness :
    tsNewClient ⟨none, none, none, none⟩ none = .error (mkAuthenticationError
      "API key required. Provide via apiKey option or MESHLOGIC_API_KEY environment variable.")
    ∧ goNewClient [] "" = .error (.base
      { code := "AUTH_ERROR"
        message := "API key required. Provide via WithAPIKey() or MESHLOGIC_API_KEY environment variable."
        statusCode := 0 }) :=
  ⟨c4_missingKey_construction_amended.1 ⟨none, none, none, none⟩ none rfl,
   c4_missingKey_construction_amended.2.2 [] "" rfl⟩

/-- C5 (amended): the fixed region table has (exactly) three entries, and an
unknown region silently falls back to the default region's URL rather than
failing.  In the TypeScript variant an explicit nonempty `baseUrl` always
wins over any region.  In the Go variant the functional options apply in
order, so `WithRegion` with a known region *overwrites* an earlier
`WithBaseURL` (explicit base URL does not take precedence there); a
`WithRegion` with an unknown region leaves the current base URL unchanged
(the default when nothing else set it). -/
theorem c5_baseUrl_resolution_amended :
    (∀ (cfg : TsConfig) (u : String), cfg.baseUrl = some u → u ≠ "" →
      tsResolveBaseUrl cfg = u)
    ∧ (∀ (cfg : TsConfig) (r e : String), cfg.baseUrl = none → cfg.region = some r →
      endpoints r = some e → tsResolveBaseUrl cfg = e)
    ∧ (∀ (cfg : TsConfig) (r : String), cfg.baseUrl = none → cfg.region = some r →
      endpoints r = none → tsResolveBaseUrl cfg = "https://api.meshlogic.ai")
    ∧ endpoints "ap-southeast-2" = some "https://api.meshlogic.ai"
    ∧ endpoints "us-east-1" = some "https://api.us.meshlogic.ai"
    ∧ endpoints "eu-west-1" = some "https://api.eu.meshlogic.ai"
    ∧ (∀ (c : GoClient) (u : String), applyOption c (.withBaseURL u) = { c with baseURL := u })
    ∧ (∀ (c : GoClient) (r e : String), endpoints r = some e →
      applyOption c (.withRegion r) = { c with baseURL := e })
    ∧ (∀ (c : GoClient) (r : String), endpoints r = none →
      applyOption c (.withRegion r) = c) := by
  refine ⟨?_, ?_, ?_, rfl, rfl, rfl, fun c u => rfl, ?_, ?_⟩
  · intro cfg u hb hu
    simp [tsResolveBaseUrl, hb, jsOrS, hu]
  · intro cfg r e hb hr he
    have her : e ≠ "" := by
      unfold endpoints at he
      split at he
      · simp only [Option.some.injEq] at he; subst he; decide
      · split at he
        · simp only [Option.some.injEq] at he; subst he; decide
        · split at he
          · simp only [Option.some.injEq] at he; subst he; decide
          · exact Option.noConfusion he
    have hrne : r ≠ "" := by
      intro hc
      rw [hc] at he
      exact Option.noConfusion ((by decide : endpoints "" = none) ▸ he)
    simp [tsResolveBaseUrl, hb, hr, jsOrS, hrne, he, her]
  · intro cfg r hb hr he
    by_cases hrne : r = ""
    · subst hrne
      simp [tsResolveBaseUrl, hb, hr, jsOrS, endpoints]
    · simp [tsResolveBaseUrl, hb, hr, jsOrS, hrne, he]
      decide
  · intro c r e he
    simp [applyOption, he]
  · intro c r he
    simp [applyOption, he]

/-- Counterexample to C5 as stated: in the Go variant an explicit
`WithBaseURL` does *not* take precedence over a region — a later
`WithRegion("us-east-1")` overwrites it. -/
theorem c5_baseUrl_resolution_counterexample :
    goNewClient [.withAPIKey "k", .withBaseURL "https://internal.example", .withRegion "us-east-1"] ""
      = .ok { apiKey := "k", baseURL := "https://api.us.meshlogic.ai", timeoutMs := 30000 }
    ∧ ("https://api.us.meshlogic.ai" : String) ≠ "https://internal.example" := by
  refine ⟨rfl, by decide⟩

/-- Witness for C5 (amended): explicit base URL wins in TypeScript, and an
unknown region resolves to the default region's URL. -/
theorem c5_baseUrl_resolution_witness :
    tsResolveBaseUrl ⟨some "k", some "us-east-1", some "https://internal.example", none⟩
      = "https://internal.example"
    ∧ tsResolveBaseUrl ⟨some "k", some "mars-1", none, none⟩ = "https://api.meshlogic.ai" :=
  ⟨c5_baseUrl_resolution_amended.1 _ "https://internal.example" rfl (by decide),
   c5_baseUrl_resolution_amended.2.2.1 _ "mars-1" rfl rfl (by decide)⟩

/-- C7 (amended): in the TypeScript variant, a 401 response with an
unparseable (e.g. empty) body yields the message
`"Invalid or expired API key"`, and a 404 response with an unparseable body
at path `p` yields `"Resource not found: " ++ p`.  The Go variant has no
such fallbacks: with an unparseable body the 401/404 error's message is the
raw body (so `""` for an empty body) and its code is `UNKNOWN`. -/
theorem c7_emptyBody_fallback_amended :
    (∀ (path : String) (hdr : Option String) (bj : Option String),
      tsRequest path (.success ⟨401, none, none, hdr, bj⟩)
        = .err (mkAuthenticationError "Invalid or expired API key"))
    ∧ (∀ (path : String) (hdr : Option String) (bj : Option String),
      tsRequest path (.success ⟨404, none, none, hdr, bj⟩)
        = .err (mkNotFoundError ("Resource not found: " ++ path)))
    ∧ (∀ (body hdr : String), goRequest (.success ⟨401, body, hdr⟩ none)
        = .apiError (.auth { code := "UNKNOWN", message := body, statusCode := 401 }))
    ∧ (∀ (body hdr : String), goRequest (.success ⟨404, body, hdr⟩ none)
        = .apiError (.notFound { code := "UNKNOWN", message := body, statusCode := 404 })) := by
  refine ⟨?_, ?_, ?_, ?_⟩
  · intro path hdr bj
    simp [tsRequest, tsClassify, jsOrS]
  · intro path hdr bj
    simp [tsRequest, tsClassify, jsOrS]
  · intro body hdr
    simp [goRequest, goClassify]
  · intro body hdr
    simp [goRequest, goClassify]

/-- Counterexample to C7 as stated: the Go variant's 404 with an empty body
at path `/v1/devices/xyz` carries message `""`, not
`"Resource not found: /v1/devices/xyz"`. -/
theorem c7_emptyBody_fallback_counterexample :
    goRequest (.success ⟨404, "", ""⟩ none)
      = .apiError (.notFound { code := "UNKNOWN", message := "", statusCode := 404 })
    ∧ ("" : String) ≠ "Resource not found: /v1/devices/xyz" := by
  refine ⟨rfl, by decide⟩

/-- Witness for C7 (amended) at the spec's own 404 example path. -/
theorem c7_emptyBody_fallback_witness :
    tsRequest "/v1/devices/xyz" (.success ⟨404, none, none, none, none⟩)
      = .err (mkNotFoundError "Resource not found: /v1/devices/xyz")
    ∧ tsRequest "/p" (.success ⟨401, none, none, none, none⟩)
      = .err (mkAuthenticationError "Invalid or expired API key") :=
  ⟨c7_emptyBody_fallback_amended.2.1 "/v1/devices/xyz" none none,
   c7_emptyBody_fallback_amended.1 "/p" none none⟩

/-- C8 (amended): the Go variant returns the raw response body, with no
error classification, for *every* status below 400.  The TypeScript variant
succeeds only for `response.ok` statuses 200–299, returning the JSON-parsed
body; a body that fails to parse escapes as a raw `SyntaxError` rejection
(never one of the SDK's typed errors); and a 3xx status below 400 falls
into the generic error classification branch. -/
theorem c8_successPath_amended :
    (∀ (resp : GoResp) (parsed : Option (String × String)), resp.status < 400 →
      goRequest (.success resp parsed) = .ok resp.body)
    ∧ (∀ (path : String) (r : TsResp) (j : String), 200 ≤ r.status → r.status ≤ 299 →
      r.bodyJson = some j → tsRequest path (.success r) = .ok j)
    ∧ (∀ (path : String) (r : TsResp), 200 ≤ r.status → r.status ≤ 299 →
      r.bodyJson = none →
      tsRequest path (.success r) = .reject "SyntaxError: Unexpected end of JSON input")
    ∧ (∀ (path : String) (r : TsResp), 300 ≤ r.status → r.status < 400 →
      tsRequest path (.success r) = .err (tsClassify path r)) := by
  refine ⟨?_, ?_, ?_, ?_⟩
  · intro resp parsed h
    have h400 : ¬ (400 ≤ resp.status) := by omega
    simp [goRequest, h400]
  · intro path r j h1 h2 hj
    simp [tsRequest, h1, h2, hj]
  · intro path r h1 h2 hj
    simp [tsRequest, h1, h2, hj]
  · intro path r h1 h2
    have hnotOk : ¬ (200 ≤ r.status ∧ r.status ≤ 299) := by omega
    simp [tsRequest, hnotOk]

/-- Counterexample to C8 as stated: a TypeScript 304 response — status
below 400 — does not succeed: `response.ok` is false and the response is
classified into a typed `MeshLogicError` with code `UNKNOWN`. -/
theorem c8_successPath_counterexample :
    tsRequest "/p" (.success ⟨304, none, none, none, none⟩)
      = .err (mkMeshLogicError "Unknown error" (some "UNKNOWN") (some 304))
    ∧ (304 : Nat) < 400 := by
  refine ⟨by decide, by decide⟩

/-- Witness for C8 (amended): a Go 200 response returns the raw body, and a
TypeScript 200 response returns the parsed JSON value. -/
theorem c8_successPath_witness :
    goRequest (.success ⟨200, "raw-bytes", ""⟩ none) = .ok "raw-bytes"
    ∧ tsRequest "/p" (.success ⟨200, none, none, none, some "parsed"⟩) = .ok "parsed" :=
  ⟨c8_successPath_amended.1 ⟨200, "raw-bytes", ""⟩ none (by decide),
   c8_successPath_amended.2.1 "/p" ⟨200, none, none, none, some "parsed"⟩ "parsed"
     (by decide) (by decide) rfl⟩

/-- C9 (amended): in both variants, every error that uses the *base* string
form includes the machine code when it is present (in Go this covers the
base `Error` and the inheriting `AuthenticationError` and `NotFoundError`;
in TypeScript every class except the two that override `toString`).  The
rate-limit string form always includes the retry delay, and the validation
string form includes the field name when it is known — but those two
overridden string forms do *not* include the machine code. -/
theorem c9_errorString_amended :
    (∀ e : GoError, e.code ≠ "" → strContains e.errorString e.code = true)
    ∧ (∀ e : GoError, (GoErrVal.base e).errorString = e.errorString
        ∧ (GoErrVal.auth e).errorString = e.errorString
        ∧ (GoErrVal.notFound e).errorString = e.errorString)
    ∧ (∀ (e : GoError) (ra : Int),
        strContains (GoErrVal.rateLimit e ra).errorString (toString ra) = true)
    ∧ (∀ (e : GoError) (f : String), f ≠ "" →
        strContains (GoErrVal.validation e f).errorString f = true)
    ∧ (∀ (t : TsError) (c : String), t.name ≠ "RateLimitError" →
        t.name ≠ "ValidationError" → t.code = some c → c ≠ "" →
        strContains t.toStr c = true)
    ∧ (∀ (m : String) (ra : Option Int),
        strContains (mkRateLimitError m ra).toStr (renderRetryAfter ra) = true)
    ∧ (∀ (m f : String), f ≠ "" →
        strContains (mkValidationError m (some f)).toStr f = true) := by
  refine ⟨?_, fun e => ⟨rfl, rfl, rfl⟩, ?_, ?_, ?_, ?_, ?_⟩
  · intro e h
    rw [GoError.errorString, if_pos h, String.append_assoc]
    exact strContains_append "[" e.code ("] " ++ e.message)
  · intro e ra
    exact strContains_append (e.message ++ ". Retry after ") (toString ra) " seconds."
  · intro e f h
    rw [GoErrVal.errorString, if_pos h, String.append_assoc]
    exact strContains_append "Validation error on field '" f ("': " ++ e.message)
  · intro t c h1 h2 hc hne
    rw [TsError.toStr, if_neg h1, if_neg h2, hc]
    simp only [if_neg hne]
    rw [String.append_assoc]
    exact strContains_append "[" c ("] " ++ t.message)
  · intro m ra
    rw [TsError.toStr,
      if_pos (show (mkRateLimitError m ra).name = "RateLimitError" from rfl)]
    exact strContains_append
      ((mkRateLimitError m ra).message ++ ". Retry after ")
      (renderRetryAfter ra) " seconds."
  · intro m f h
    rw [TsError.toStr]
    simp only [mkValidationError, if_neg (by decide : ¬ ("ValidationError" = "RateLimitError")),
      if_pos rfl, if_neg h]
    rw [String.append_assoc]
    exact strContains_append "Validation error on field '" f ("': " ++ m)

/-- Counterexample to C9 as stated: a Go `RateLimitError` whose code
`RATE_LIMIT` is present renders as `"m. Retry after 60 seconds."`, which
does not include the machine code. -/
theorem c9_errorString_counterexample :
    (GoErrVal.rateLimit { code := "RATE_LIMIT", message := "m", statusCode := 429 } 60).errorString
      = "m. Retry after 60 seconds."
    ∧ strContains
        (GoErrVal.rateLimit { code := "RATE_LIMIT", message := "m", statusCode := 429 } 60).errorString
        "RATE_LIMIT" = false := by
  refine ⟨by decide, by decide⟩

/-- Witness for C9 (amended): a concrete Go base error's string contains its
code, and a concrete TypeScript rate-limit error's string contains its
retry delay. -/
theorem c9_errorString_witness :
    strContains (GoError.errorString { code := "NOT_FOUND", message := "x", statusCode := 404 })
      "NOT_FOUND" = true
    ∧ strContains (mkRateLimitError "slow down" (some 120)).toStr (renderRetryAfter (some 120)) = true :=
  ⟨c9_errorString_amended.1 { code := "NOT_FOUND", message := "x", statusCode := 404 } (by decide),
   c9_errorString_amended.2.2.2.2.2.1 "slow down" (some 120)⟩

/-- C10: client construction treats an explicitly supplied empty-string API
key the same as an absent key: it falls back to the `MESHLOGIC_API_KEY`
environment variable, fails only when that is also empty or unset, and an
empty string is never the resolved key of a successfully constructed
client — in both variants. -/
theorem c10_emptyKey_fallback :
    (∀ (r b : Option String) (t : Option Nat) (env : Option String),
      tsNewClient ⟨some "", r, b, t⟩ env = tsNewClient ⟨none, r, b, t⟩ env)
    ∧ (∀ (cfg : TsConfig) (env : Option String) (c : TsClient),
      tsNewClient cfg env = .ok c → c.apiKey ≠ "")
    ∧ (∀ (r b : Option String) (t : Option Nat) (e : String), e ≠ "" →
      tsNewClient ⟨some "", r, b, t⟩ (some e)
        = .ok { apiKey := e
                baseUrl := tsResolveBaseUrl ⟨some "", r, b, t⟩
                timeout := jsOrN t 30000 })
    ∧ (∀ (r b : Option String) (t : Option Nat),
      (tsNewClient ⟨some "", r, b, t⟩ none).isOk = false
      ∧ (tsNewClient ⟨some "", r, b, t⟩ (some "")).isOk = false)
    ∧ (∀ env, goNewClient [.withAPIKey ""] env = goNewClient [] env)
    ∧ (∀ (opts : List GoOption) (env : String) (c : GoClient),
      goNewClient opts env = .ok c → c.apiKey ≠ "")
    ∧ (∀ env, env ≠ "" → goNewClient [.withAPIKey ""] env
        = .ok { apiKey := env, baseURL := "https://api.meshlogic.ai", timeoutMs := 30000 })
    ∧ (goNewClient [.withAPIKey ""] "").isOk = false := by
  refine ⟨fun r b t env => rfl, ?_, ?_, ?_, fun env => rfl, ?_, ?_, rfl⟩
  · intro cfg env c h
    simp only [tsNewClient] at h
    split at h
    · exact absurd h (by simp)
    · rename_i hk
      rw [Except.ok.injEq] at h
      rw [← h]
      exact hk
  · intro r b t e he
    have hkey : tsResolveKey ⟨some "", r, b, t⟩ (some e) = e := by
      simp [tsResolveKey, jsOrS, he]
    simp [tsNewClient, hkey, he]
  · intro r b t
    exact ⟨rfl, rfl⟩
  · intro opts env c h
    simp only [goNewClient] at h
    split at h
    · split at h
      · exact absurd h (by simp)
      · rename_i hk
        rw [Except.ok.injEq] at h
        rw [← h]
        exact hk
    · rename_i hk
      rw [Except.ok.injEq] at h
      rw [← h]
      exact hk
  · intro env he
    simp [goNewClient, applyOption, he, endpoints]

/-- Witness for C10 at a concrete environment key: construction with an
explicit empty key resolves to the environment variable's value in both
variants. -/
theorem c10_emptyKey_fallback_witness :
    tsNewClient ⟨some "", none, none, none⟩ (some "sk-1")
      = .ok { apiKey := "sk-1"
              baseUrl := tsResolveBaseUrl ⟨some "", none, none, none⟩
              timeout := jsOrN none 30000 }
    ∧ goNewClient [.withAPIKey ""] "sk-1"
      = .ok { apiKey := "sk-1", baseURL := "https://api.meshlogic.ai", timeoutMs := 30000 } :=
  ⟨c10_emptyKey_fallback.2.2.1 none none none "sk-1" (by decide),
   c10_emptyKey_fallback.2.2.2.2.2.2.1 "sk-1" (by decide)⟩

end MeshLogicSDK
